import Mathlib

/-!
Verification development for the ESP32 WiFi diagnostic firmware
(src/src/main.cpp).  The source is shallowly embedded: the global
disconnect counter becomes explicit state threaded through the event
callback, the HTTP handlers become pure functions of the platform
readings they consume, and the chunked download send loop becomes a
fuel-indexed step function over an abstract client behaviour.
Machine integers (uint32_t counter, uint32_t millis, size_t size)
are modelled as Nat reduced mod 2 ^ 32 where the source stores them
in 32-bit variables.
-/

namespace Esp32WifiTest

/-- The width modulus of the 32-bit unsigned quantities in the source
(uint32_t disconnect counter, millis tick, size_t on ESP32). -/
def u32Mod : Nat := 4294967296

-- -------------------------------------------------------------------
-- Event monitor (onWiFiEvent, disconnect_count)
-- -------------------------------------------------------------------

/-- The WiFi events the callback can receive.  Only the two
disconnect-meaning constructors are ever tested by the source. -/
inductive WiFiEventT where
  | apStaConnected
  | apStaDisconnected
  | staConnected
  | staDisconnected
  | staGotIp
  | apStart
  | apStop
  | otherEvent
deriving DecidableEq

/-- The disjunction tested by onWiFiEvent:
event == ARDUINO_EVENT_WIFI_AP_STADISCONNECTED ||
event == ARDUINO_EVENT_WIFI_STA_DISCONNECTED. -/
def isDisconnectEvent (e : WiFiEventT) : Bool :=
  e = WiFiEventT.apStaDisconnected ∨ e = WiFiEventT.staDisconnected

/-- Embedding of onWiFiEvent: increments the volatile uint32_t
disconnect_count (wrapping mod 2 ^ 32) on the two disconnect events,
leaves it unchanged otherwise.  State passing replaces the global. -/
def onWiFiEvent (event : WiFiEventT) (disconnect_count : Nat) : Nat :=
  if isDisconnectEvent event then (disconnect_count + 1) % u32Mod
  else disconnect_count

/-- The counter produced by delivering a list of events to the
callback, starting from the zero-initialised global. -/
def processEvents (events : List WiFiEventT) : Nat :=
  events.foldl (fun c e => onWiFiEvent e c) 0

/-- Number of disconnect-meaning events in a delivered sequence. -/
def countDisconnects (events : List WiFiEventT) : Nat :=
  events.countP (fun e => isDisconnectEvent e)

-- -------------------------------------------------------------------
-- Status handler (handleStatus)
-- -------------------------------------------------------------------

/-- Platform readings consumed synchronously by handleStatus.
The transmit power is kept in quarter-dBm units as the platform
reports it; the source scales it by 0.25 only for display. -/
structure PlatformStatus where
  ip : String
  mac : String
  uptimeMs : Nat
  heap : Nat
  txPowerQuarter : Int
  cpuFreqMHz : Nat
  tcpRexmit : Option Nat
deriving DecidableEq

/-- The snapshot of values handleStatus serialises into its JSON
response. -/
structure StatusSnapshot where
  ip : String
  mac : String
  uptime : Nat
  heap : Nat
  txPowerQuarter : Int
  cpuFreqMHz : Nat
  tcpRexmit : Option Nat
  disconnects : Nat
deriving DecidableEq

/-- Embedding of handleStatus: reads the platform values and the
disconnect counter and assembles the snapshot reported to the client.
The tcp_rexmit field is present only when the platform provides it. -/
def handleStatus (p : PlatformStatus) (disconnect_count : Nat) : StatusSnapshot :=
  { ip := p.ip
    mac := p.mac
    uptime := p.uptimeMs / 1000
    heap := p.heap
    txPowerQuarter := p.txPowerQuarter
    cpuFreqMHz := p.cpuFreqMHz
    tcpRexmit := p.tcpRexmit
    disconnects := disconnect_count }

-- -------------------------------------------------------------------
-- Helper lemmas about the counter
-- -------------------------------------------------------------------

theorem onWiFiEvent_not_disconnect (e : WiFiEventT) (c : Nat)
    (h : isDisconnectEvent e = false) : onWiFiEvent e c = c := by
  simp [onWiFiEvent, h]

theorem onWiFiEvent_disconnect (e : WiFiEventT) (c : Nat)
    (h : isDisconnectEvent e = true) : onWiFiEvent e c = (c + 1) % u32Mod := by
  simp [onWiFiEvent, h]

theorem u32Mod_pos : 0 < u32Mod := by decide

theorem foldl_onWiFiEvent_eq (events : List WiFiEventT) :
    ∀ c : Nat, c < u32Mod →
      events.foldl (fun c e => onWiFiEvent e c) c
        = (c + countDisconnects events) % u32Mod := by
  induction events with
  | nil =>
      intro c hc
      simp [countDisconnects, Nat.mod_eq_of_lt hc]
  | cons e es ih =>
      intro c hc
      by_cases hd : isDisconnectEvent e = true
      · have hstep : onWiFiEvent e c = (c + 1) % u32Mod :=
          onWiFiEvent_disconnect e c hd
        have hlt : (c + 1) % u32Mod < u32Mod := Nat.mod_lt _ u32Mod_pos
        have := ih ((c + 1) % u32Mod) hlt
        simp only [List.foldl_cons, hstep, this]
        rw [Nat.mod_add_mod]
        have hcount : countDisconnects (e :: es) = countDisconnects es + 1 := by
          simp [countDisconnects, List.countP_cons, hd]
        rw [hcount]
        ring_nf
      · have hfd : isDisconnectEvent e = false := by
          simpa using hd
        have hstep : onWiFiEvent e c = c := onWiFiEvent_not_disconnect e c hfd
        have hcount : countDisconnects (e :: es) = countDisconnects es := by
          simp [countDisconnects, List.countP_cons, hfd]
        simp only [List.foldl_cons, hstep, hcount]
        exact ih c hc

theorem processEvents_eq (events : List WiFiEventT) :
    processEvents events = countDisconnects events % u32Mod := by
  have := foldl_onWiFiEvent_eq events 0 u32Mod_pos
  simpa [processEvents] using this

theorem countDisconnects_replicate (n : Nat) :
    countDisconnects (List.replicate n WiFiEventT.apStaDisconnected) = n := by
  induction n with
  | zero => simp [countDisconnects]
  | succ k ih =>
      simp only [countDisconnects, List.replicate_succ, List.countP_cons] at ih ⊢
      rw [ih]
      have h : isDisconnectEvent WiFiEventT.apStaDisconnected = true := by decide
      simp [h]

-- -------------------------------------------------------------------
-- HTTP responses and JSON array construction (handleScan, handleClients)
-- -------------------------------------------------------------------

/-- A server.send response: status code, content type, body string. -/
structure HttpResponse where
  status : Nat
  contentType : String
  body : String
deriving DecidableEq

/-- wifi_auth_mode_t values distinguished by the source. -/
inductive WifiAuthMode where
  | authOpen
  | authWep
  | authWpaPsk
  | authWpa2Psk
  | authWpaWpa2Psk
  | authWpa2Enterprise
  | authWpa3Psk
  | authOther
deriving DecidableEq

/-- Embedding of translateEncryptionType. -/
def translateEncryptionType : WifiAuthMode → String
  | WifiAuthMode.authOpen => "Open"
  | WifiAuthMode.authWep => "WEP"
  | WifiAuthMode.authWpaPsk => "WPA_PSK"
  | WifiAuthMode.authWpa2Psk => "WPA2_PSK"
  | WifiAuthMode.authWpaWpa2Psk => "WPA_WPA2_PSK"
  | WifiAuthMode.authWpa2Enterprise => "WPA2_ENTERPRISE"
  | WifiAuthMode.authWpa3Psk => "WPA3_PSK"
  | WifiAuthMode.authOther => "Unknown"

/-- One network as the scanner reports it. -/
structure ScanNet where
  ssid : String
  rssi : Int
  channel : Nat
  auth : WifiAuthMode
deriving DecidableEq

/-- The JSON object the scan loop appends for one network, exactly the
concatenation the source performs. -/
def netJson (n : ScanNet) : String :=
  "\x7b" ++ "\"ssid\":\"" ++ n.ssid ++ "\"," ++ "\"rssi\":" ++ toString n.rssi
    ++ "," ++ "\"channel\":" ++ toString n.channel ++ ","
    ++ "\"auth\":\"" ++ translateEncryptionType n.auth ++ "\"" ++ "\x7d"

/-- The source loop pattern shared by handleScan and handleClients:
starting from the accumulated string, append a comma before every
element except the first, then the element serialisation. -/
def joinLoop {α : Type} (f : α → String) : List α → Bool → String → String
  | [], _, acc => acc
  | x :: xs, first, acc => joinLoop f xs false (acc ++ (if first then "" else ",") ++ f x)

/-- The bracketed JSON array the source builds. -/
def jsonArray {α : Type} (f : α → String) (xs : List α) : String :=
  joinLoop f xs true "[" ++ "]"

/-- Specification-side helper: comma-prefixed tail of a serialised
sequence. -/
def commaTail : List String → String
  | [] => ""
  | s :: ss => "," ++ s ++ commaTail ss

/-- Specification-side serialisation of a sequence: the elements in
order, separated by commas. -/
def commaSeparated : List String → String
  | [] => ""
  | s :: ss => s ++ commaTail ss

/-- Embedding of handleScan, as a function of the scanner-reported
network list: serialises all entries in order and responds 200. -/
def handleScan (nets : List ScanNet) : HttpResponse :=
  { status := 200, contentType := "application/json", body := jsonArray netJson nets }

/-- One associated station as esp_wifi_ap_get_sta_list reports it:
six hardware-address octets and a signal strength. -/
structure ApStation where
  mac0 : Nat
  mac1 : Nat
  mac2 : Nat
  mac3 : Nat
  mac4 : Nat
  mac5 : Nat
  rssi : Int
deriving DecidableEq

/-- One hex digit, uppercase, as printf %X produces. -/
def byteHexChar (n : Nat) : Char :=
  if n < 10 then Char.ofNat (48 + n) else Char.ofNat (55 + n)

/-- printf "%02X" of one octet: high nibble then low nibble. -/
def byteHex (b : Nat) : String :=
  String.mk [byteHexChar (b / 16), byteHexChar (b % 16)]

/-- The sprintf "%02X:%02X:%02X:%02X:%02X:%02X" format of a hardware
address. -/
def macToStr (s : ApStation) : String :=
  byteHex s.mac0 ++ ":" ++ byteHex s.mac1 ++ ":" ++ byteHex s.mac2 ++ ":"
    ++ byteHex s.mac3 ++ ":" ++ byteHex s.mac4 ++ ":" ++ byteHex s.mac5

/-- Specification-side helper: strings joined with colons. -/
def colonJoin : List String → String
  | [] => ""
  | [s] => s
  | s :: ss => s ++ ":" ++ colonJoin ss

/-- The JSON object the clients loop appends for one station, exactly
the concatenation the source performs. -/
def staJson (s : ApStation) : String :=
  "\x7b" ++ "\"mac\":\"" ++ macToStr s ++ "\"," ++ "\"rssi\":" ++ toString s.rssi ++ "\x7d"

/-- Embedding of handleClients, as a function of the live station
roster: serialises all entries in order and responds 200. -/
def handleClients (stas : List ApStation) : HttpResponse :=
  { status := 200, contentType := "application/json", body := jsonArray staJson stas }

/-- Is a character an uppercase hexadecimal digit. -/
def isHexDigitChar (c : Char) : Bool :=
  c.isDigit || (decide (65 ≤ c.toNat) && decide (c.toNat ≤ 70))

-- -------------------------------------------------------------------
-- Ping handler (handlePing) and the millis tick
-- -------------------------------------------------------------------

/-- The Arduino millis() value: the platform keeps elapsed
milliseconds since boot and returns them as an unsigned long
(uint32_t on ESP32), so the returned tick is the true elapsed time
reduced mod 2 ^ 32. -/
def millisOf (elapsedMs : Nat) : Nat := elapsedMs % u32Mod

/-- Embedding of handlePing: responds 200 text/plain with the decimal
rendering of the current millis tick. -/
def handlePing (elapsedMs : Nat) : HttpResponse :=
  { status := 200, contentType := "text/plain", body := toString (millisOf elapsedMs) }

-- -------------------------------------------------------------------
-- JSON loop lemmas
-- -------------------------------------------------------------------

theorem joinLoop_false {α : Type} (f : α → String) :
    ∀ (xs : List α) (acc : String),
      joinLoop f xs false acc = acc ++ commaTail (xs.map f) := by
  intro xs
  induction xs with
  | nil => intro acc; simp [joinLoop, commaTail]
  | cons x xs ih =>
      intro acc
      simp only [joinLoop, if_neg Bool.false_ne_true, List.map_cons, commaTail, ih]
      simp [String.append_assoc]

theorem jsonArray_eq {α : Type} (f : α → String) (xs : List α) :
    jsonArray f xs = "[" ++ commaSeparated (xs.map f) ++ "]" := by
  cases xs with
  | nil => simp [jsonArray, joinLoop, commaSeparated]
  | cons x xs =>
      simp only [jsonArray, joinLoop, if_pos, List.map_cons, commaSeparated,
        joinLoop_false]
      simp [String.append_assoc]

theorem macToStr_colonJoin (s : ApStation) :
    macToStr s = colonJoin
      [byteHex s.mac0, byteHex s.mac1, byteHex s.mac2,
       byteHex s.mac3, byteHex s.mac4, byteHex s.mac5] := by
  simp [macToStr, colonJoin, String.append_assoc]

set_option maxRecDepth 4096 in
theorem byteHex_wellFormed :
    ∀ b : Nat, b < 256 →
      (byteHex b).length = 2 ∧ (byteHex b).data.all isHexDigitChar = true := by
  decide

-- -------------------------------------------------------------------
-- Download handler (handleDownload)
-- -------------------------------------------------------------------

/-- Consume leading whitespace, as atol does before parsing. -/
def skipSpaces : List Char → List Char
  | [] => []
  | c :: cs =>
      if c = ' ' ∨ c = '\t' ∨ c = '\n' ∨ c = '\r' then skipSpaces cs
      else c :: cs

/-- Accumulate decimal digits until the first non-digit, as atol does.
A string with no leading digits yields the accumulator, i.e. zero. -/
def readDigits : List Char → Nat → Nat
  | [], acc => acc
  | c :: cs, acc =>
      if c.isDigit then readDigits cs (acc * 10 + (c.toNat - 48))
      else acc

/-- Arduino String toInt, which calls atol: optional whitespace, an
optional sign, then leading digits; anything non-numeric parses as
zero. -/
def stringToInt (s : String) : Int :=
  match skipSpaces s.data with
  | '-' :: cs => - (readDigits cs 0 : Int)
  | '+' :: cs => (readDigits cs 0 : Int)
  | cs => (readDigits cs 0 : Int)

/-- The size_t the download handler uses: the one-megabyte default
when the size argument is absent, otherwise toInt converted to the
unsigned 32-bit size_t. -/
def parseSize : Option String → Nat
  | none => 1048576
  | some s => (stringToInt s % (u32Mod : Int)).toNat

/-- What the TCP client does at one loop iteration: whether
client.connected() still reports true, and how many bytes a
client.write of the requested chunk would accept (the loop takes at
most the requested chunk of this). -/
structure ClientStep where
  connected : Bool
  accepted : Nat
deriving DecidableEq

/-- How a run of the send loop ended: the declared total was reached,
the client was seen disconnected, or the fuel bound was hit while the
loop was still going. -/
inductive Outcome where
  | completed
  | disconnected
  | fuelOut
deriving DecidableEq

/-- Observable result of a send-loop run: how it ended, the final
sent counter, the successful chunk sizes in order, and how many
delay(1) yields happened. -/
structure RunResult where
  outcome : Outcome
  sent : Nat
  chunks : List Nat
  delays : Nat
deriving DecidableEq

/-- Embedding of the send loop of handleDownload.  Each iteration
checks sent < size and client.connected(), requests a chunk of
min (size - sent) 4096 bytes, and on a zero-byte write performs
delay(1) and retries; otherwise it adds the written bytes to sent.
The fuel argument only bounds the number of iterations examined. -/
def run (size : Nat) (client : Nat → ClientStep) : Nat → Nat → Nat → RunResult
  | 0, sent, _ => { outcome := Outcome.fuelOut, sent := sent, chunks := [], delays := 0 }
  | fuel + 1, sent, t =>
      if size ≤ sent then
        { outcome := Outcome.completed, sent := sent, chunks := [], delays := 0 }
      else if (client t).connected = false then
        { outcome := Outcome.disconnected, sent := sent, chunks := [], delays := 0 }
      else
        if min (client t).accepted (min (size - sent) 4096) = 0 then
          let r := run size client fuel sent (t + 1)
          { outcome := r.outcome, sent := r.sent, chunks := r.chunks, delays := r.delays + 1 }
        else
          let w := min (client t).accepted (min (size - sent) 4096)
          let r := run size client fuel (sent + w) (t + 1)
          { outcome := r.outcome, sent := r.sent, chunks := w :: r.chunks, delays := r.delays }

/-- Result of handleDownload: the header sent up front (status 200,
octet-stream, content length declared as the parsed size) plus the
observed behaviour of the send loop. -/
structure DownloadResult where
  status : Nat
  contentType : String
  contentLength : Nat
  outcome : Outcome
  sentTotal : Nat
  chunks : List Nat
  delays : Nat
deriving DecidableEq

/-- Embedding of handleDownload: parse the size argument, declare the
content length, send the 200 header, then run the chunked send loop
against the client behaviour. -/
def handleDownload (sizeArg : Option String) (client : Nat → ClientStep) (fuel : Nat) :
    DownloadResult :=
  { status := 200
    contentType := "application/octet-stream"
    contentLength := parseSize sizeArg
    outcome := (run (parseSize sizeArg) client fuel 0 0).outcome
    sentTotal := (run (parseSize sizeArg) client fuel 0 0).sent
    chunks := (run (parseSize sizeArg) client fuel 0 0).chunks
    delays := (run (parseSize sizeArg) client fuel 0 0).delays }

/-- The body bytes put on the wire: each successful chunk writes that
many copies of the 0xAA fill byte from the memset buffer. -/
def bodyBytes (d : DownloadResult) : List Nat :=
  d.chunks.flatMap (fun c => List.replicate c 170)

/-- A fully cooperative client: stays connected and accepts any chunk
the loop can request (all chunks are at most 4096 bytes). -/
def coopClient : Nat → ClientStep := fun _ => { connected := true, accepted := 4096 }

/-- A stalled client: stays connected but never accepts a byte. -/
def stallClient : Nat → ClientStep := fun _ => { connected := true, accepted := 0 }

/-- A client that is reported disconnected from the start. -/
def deadClient : Nat → ClientStep := fun _ => { connected := false, accepted := 0 }

-- -------------------------------------------------------------------
-- Send-loop equation lemmas
-- -------------------------------------------------------------------

theorem run_zero (size : Nat) (client : Nat → ClientStep) (sent t : Nat) :
    run size client 0 sent t
      = { outcome := Outcome.fuelOut, sent := sent, chunks := [], delays := 0 } := rfl

theorem run_eq_completed (size : Nat) (client : Nat → ClientStep) (fuel sent t : Nat)
    (h : size ≤ sent) :
    run size client (fuel + 1) sent t
      = { outcome := Outcome.completed, sent := sent, chunks := [], delays := 0 } := by
  simp only [run, if_pos h]

theorem run_eq_disconnected (size : Nat) (client : Nat → ClientStep) (fuel sent t : Nat)
    (h1 : ¬ size ≤ sent) (h2 : (client t).connected = false) :
    run size client (fuel + 1) sent t
      = { outcome := Outcome.disconnected, sent := sent, chunks := [], delays := 0 } := by
  simp only [run, if_neg h1, h2]
  simp

theorem run_eq_stall (size : Nat) (client : Nat → ClientStep) (fuel sent t : Nat)
    (h1 : ¬ size ≤ sent) (h2 : (client t).connected = true)
    (h3 : min (client t).accepted (min (size - sent) 4096) = 0) :
    run size client (fuel + 1) sent t
      = { outcome := (run size client fuel sent (t + 1)).outcome
          sent := (run size client fuel sent (t + 1)).sent
          chunks := (run size client fuel sent (t + 1)).chunks
          delays := (run size client fuel sent (t + 1)).delays + 1 } := by
  simp only [run, if_neg h1, h2]
  simp only [Bool.true_eq_false, if_neg Bool.false_ne_true, if_pos h3]
  simp

theorem run_eq_write (size : Nat) (client : Nat → ClientStep) (fuel sent t : Nat)
    (h1 : ¬ size ≤ sent) (h2 : (client t).connected = true)
    (h3 : min (client t).accepted (min (size - sent) 4096) ≠ 0) :
    run size client (fuel + 1) sent t
      = { outcome := (run size client fuel
            (sent + min (client t).accepted (min (size - sent) 4096)) (t + 1)).outcome
          sent := (run size client fuel
            (sent + min (client t).accepted (min (size - sent) 4096)) (t + 1)).sent
          chunks := min (client t).accepted (min (size - sent) 4096)
            :: (run size client fuel
              (sent + min (client t).accepted (min (size - sent) 4096)) (t + 1)).chunks
          delays := (run size client fuel
            (sent + min (client t).accepted (min (size - sent) 4096)) (t + 1)).delays } := by
  simp only [run, if_neg h1, h2]
  simp only [Bool.true_eq_false, if_neg Bool.false_ne_true, if_neg h3]
  simp

-- -------------------------------------------------------------------
-- Send-loop invariants and termination lemmas
-- -------------------------------------------------------------------

theorem run_invariant (size : Nat) (client : Nat → ClientStep) :
    ∀ fuel sent t, sent ≤ size →
      (run size client fuel sent t).sent ≤ size ∧
      sent + ((run size client fuel sent t).chunks).sum = (run size client fuel sent t).sent ∧
      ∀ c ∈ (run size client fuel sent t).chunks, 0 < c ∧ c ≤ 4096 := by
  intro fuel
  induction fuel with
  | zero =>
      intro sent t hle
      simp [run_zero, hle]
  | succ fuel ih =>
      intro sent t hle
      by_cases hdone : size ≤ sent
      · simp [run_eq_completed size client fuel sent t hdone, hle]
      · by_cases hconn : (client t).connected = false
        · simp [run_eq_disconnected size client fuel sent t hdone hconn, hle]
        · have hconn2 : (client t).connected = true := by
            simpa using hconn
          by_cases hz : min (client t).accepted (min (size - sent) 4096) = 0
          · have heq := run_eq_stall size client fuel sent t hdone hconn2 hz
            rw [heq]
            exact ih sent (t + 1) hle
          · have heq := run_eq_write size client fuel sent t hdone hconn2 hz
            have hwle : min (client t).accepted (min (size - sent) 4096) ≤ size - sent := by
              have := Nat.min_le_right (client t).accepted (min (size - sent) 4096)
              have := Nat.min_le_left (size - sent) 4096
              omega
            have hw4096 : min (client t).accepted (min (size - sent) 4096) ≤ 4096 := by
              have := Nat.min_le_right (client t).accepted (min (size - sent) 4096)
              have := Nat.min_le_right (size - sent) 4096
              omega
            have hnext : sent + min (client t).accepted (min (size - sent) 4096) ≤ size := by
              omega
            obtain ⟨ih1, ih2, ih3⟩ := ih
              (sent + min (client t).accepted (min (size - sent) 4096)) (t + 1) hnext
            rw [heq]
            refine ⟨ih1, ?_, ?_⟩
            · simp only [List.sum_cons]
              omega
            · intro c hc
              simp only [List.mem_cons] at hc
              rcases hc with hc | hc
              · subst hc
                exact ⟨Nat.pos_of_ne_zero hz, hw4096⟩
              · exact ih3 c hc

theorem run_coop (size : Nat) (client : Nat → ClientStep)
    (hc : ∀ t, (client t).connected = true ∧ 4096 ≤ (client t).accepted) :
    ∀ rem sent t, size - sent = rem → sent ≤ size →
      ∃ fuel cs, run size client fuel sent t
        = { outcome := Outcome.completed, sent := size, chunks := cs, delays := 0 } := by
  intro rem
  induction rem using Nat.strong_induction_on with
  | _ rem ih =>
      intro sent t hrem hle
      by_cases hdone : size ≤ sent
      · have hsz : sent = size := le_antisymm hle hdone
        refine ⟨1, [], ?_⟩
        rw [run_eq_completed size client 0 sent t hdone, hsz]
      · have hconn := (hc t).1
        have hacc := (hc t).2
        have hmle : min (size - sent) 4096 ≤ (client t).accepted := by
          have := Nat.min_le_right (size - sent) 4096
          omega
        have hw : min (client t).accepted (min (size - sent) 4096)
            = min (size - sent) 4096 := Nat.min_eq_right hmle
        have hwpos : 0 < min (client t).accepted (min (size - sent) 4096) := by
          rw [hw]
          have : 0 < size - sent := by omega
          omega
        have hwle : min (client t).accepted (min (size - sent) 4096) ≤ size - sent := by
          rw [hw]
          have := Nat.min_le_left (size - sent) 4096
          omega
        obtain ⟨fuel, cs, hrun⟩ := ih
          (size - (sent + min (client t).accepted (min (size - sent) 4096)))
          (by omega)
          (sent + min (client t).accepted (min (size - sent) 4096)) (t + 1) rfl (by omega)
        refine ⟨fuel + 1, min (client t).accepted (min (size - sent) 4096) :: cs, ?_⟩
        rw [run_eq_write size client fuel sent t hdone hconn (by omega), hrun]

theorem run_stall_forever (size : Nat) (client : Nat → ClientStep)
    (hc : ∀ t, (client t).connected = true ∧ (client t).accepted = 0) :
    ∀ fuel sent t, sent < size →
      (run size client fuel sent t).outcome = Outcome.fuelOut := by
  intro fuel
  induction fuel with
  | zero =>
      intro sent t _
      rw [run_zero]
  | succ fuel ih =>
      intro sent t hlt
      have hdone : ¬ size ≤ sent := by omega
      have hconn := (hc t).1
      have hz : min (client t).accepted (min (size - sent) 4096) = 0 := by
        rw [(hc t).2]
        simp
      rw [run_eq_stall size client fuel sent t hdone hconn hz]
      exact ih sent (t + 1) hlt

theorem run_progress_completes (size : Nat) (client : Nat → ClientStep)
    (hconn : ∀ t, (client t).connected = true)
    (hprog : ∀ t, ∃ u, t ≤ u ∧ 1 ≤ (client u).accepted) :
    ∀ rem sent t, size - sent = rem → sent ≤ size →
      ∃ fuel, (run size client fuel sent t).outcome = Outcome.completed ∧
        (run size client fuel sent t).sent = size := by
  intro rem
  induction rem using Nat.strong_induction_on with
  | _ rem ih =>
      intro sent t hrem hle
      by_cases hdone : size ≤ sent
      · have hsz : sent = size := le_antisymm hle hdone
        refine ⟨1, ?_⟩
        rw [run_eq_completed size client 0 sent t hdone, hsz]
        exact ⟨rfl, rfl⟩
      · have hstep : ∀ t2, 1 ≤ (client t2).accepted →
            ∃ fuel, (run size client fuel sent t2).outcome = Outcome.completed ∧
              (run size client fuel sent t2).sent = size := by
          intro t2 hacc
          have hwpos : 0 < min (client t2).accepted (min (size - sent) 4096) := by
            have h1 : 0 < size - sent := by omega
            have h2 : 0 < min (size - sent) 4096 := by omega
            omega
          have hwle : min (client t2).accepted (min (size - sent) 4096) ≤ size - sent := by
            have := Nat.min_le_right (client t2).accepted (min (size - sent) 4096)
            have := Nat.min_le_left (size - sent) 4096
            omega
          obtain ⟨fuel, hf1, hf2⟩ := ih
            (size - (sent + min (client t2).accepted (min (size - sent) 4096)))
            (by omega)
            (sent + min (client t2).accepted (min (size - sent) 4096)) (t2 + 1) rfl (by omega)
          refine ⟨fuel + 1, ?_⟩
          rw [run_eq_write size client fuel sent t2 hdone (hconn t2) (by omega)]
          exact ⟨hf1, hf2⟩
        have inner : ∀ n t1 u, t1 ≤ u → u ≤ t1 + n → 1 ≤ (client u).accepted →
            ∃ fuel, (run size client fuel sent t1).outcome = Outcome.completed ∧
              (run size client fuel sent t1).sent = size := by
          intro n
          induction n with
          | zero =>
              intro t1 u h1 h2 hacc
              have : u = t1 := by omega
              subst this
              exact hstep u hacc
          | succ k ihk =>
              intro t1 u h1 h2 hacc
              by_cases hz : 1 ≤ (client t1).accepted
              · exact hstep t1 hz
              · have hz0 : (client t1).accepted = 0 := by omega
                have hmin : min (client t1).accepted (min (size - sent) 4096) = 0 := by
                  rw [hz0]
                  simp
                have hne : t1 ≠ u := by
                  intro he
                  rw [he] at hz0
                  omega
                obtain ⟨fuel, hf1, hf2⟩ := ihk (t1 + 1) u (by omega) (by omega) hacc
                refine ⟨fuel + 1, ?_⟩
                rw [run_eq_stall size client fuel sent t1 hdone (hconn t1) hmin]
                exact ⟨hf1, hf2⟩
        obtain ⟨u, hu1, hu2⟩ := hprog t
        exact inner (u - t) t u hu1 (by omega) hu2

theorem flatMap_replicate (cs : List Nat) (v : Nat) :
    cs.flatMap (fun c => List.replicate c v) = List.replicate cs.sum v := by
  induction cs with
  | nil => simp
  | cons c cs ih =>
      rw [List.flatMap_cons, ih, List.sum_cons, List.replicate_add]

theorem handleStatus_disconnects (p : PlatformStatus) (dc : Nat) :
    (handleStatus p dc).disconnects = dc := rfl

/-- Fixed platform readings used to instantiate status theorems. -/
def samplePlatform : PlatformStatus :=
  { ip := "192.168.4.1", mac := "AA:BB:CC:DD:EE:FF", uptimeMs := 12000,
    heap := 200000, txPowerQuarter := 78, cpuFreqMHz := 240, tcpRexmit := some 0 }

-- -------------------------------------------------------------------
-- Claims
-- -------------------------------------------------------------------

/-- C1: a download request whose size parameter parses to S > 0,
served to a fully cooperative client (always connected, every
requested chunk accepted), responds 200 with declared content length
S, completes with exactly S body bytes, every chunk between 1 and
4096 bytes, and every body byte equal to the 0xAA fill value. -/
theorem download_cooperative_exact (s : String) (S : Nat)
    (hparse : parseSize (some s) = S) (hpos : 0 < S)
    (client : Nat → ClientStep)
    (hc : ∀ t, (client t).connected = true ∧ 4096 ≤ (client t).accepted) :
    ∃ fuel,
      (handleDownload (some s) client fuel).status = 200 ∧
      (handleDownload (some s) client fuel).contentLength = S ∧
      (handleDownload (some s) client fuel).outcome = Outcome.completed ∧
      (handleDownload (some s) client fuel).sentTotal = S ∧
      (∀ c ∈ (handleDownload (some s) client fuel).chunks, 0 < c ∧ c ≤ 4096) ∧
      bodyBytes (handleDownload (some s) client fuel) = List.replicate S 170 := by
  obtain ⟨fuel, cs, hrun⟩ := run_coop S client hc S 0 0 (by omega) (by omega)
  obtain ⟨hi1, hi2, hi3⟩ := run_invariant S client fuel 0 0 (by omega)
  rw [hrun] at hi2 hi3
  simp only at hi2 hi3
  refine ⟨fuel, ?_, ?_, ?_, ?_, ?_, ?_⟩
  · rfl
  · simp [handleDownload, hparse]
  · simp [handleDownload, hparse, hrun]
  · simp [handleDownload, hparse, hrun]
  · intro c hcmem
    apply hi3
    simpa [handleDownload, hparse, hrun] using hcmem
  · have hsum : cs.sum = S := by omega
    simp [bodyBytes, handleDownload, hparse, hrun, flatMap_replicate, hsum]

/-- Witness for C1 at the concrete request size=100 served to the
cooperative client. -/
theorem download_cooperative_exact_witness :
    ∃ fuel,
      (handleDownload (some "100") coopClient fuel).status = 200 ∧
      (handleDownload (some "100") coopClient fuel).contentLength = 100 ∧
      (handleDownload (some "100") coopClient fuel).outcome = Outcome.completed ∧
      (handleDownload (some "100") coopClient fuel).sentTotal = 100 ∧
      (∀ c ∈ (handleDownload (some "100") coopClient fuel).chunks, 0 < c ∧ c ≤ 4096) ∧
      bodyBytes (handleDownload (some "100") coopClient fuel) = List.replicate 100 170 :=
  download_cooperative_exact "100" 100 (by decide) (by decide) coopClient
    (fun _ => ⟨rfl, Nat.le_refl 4096⟩)

/-- C2 counterexample: with the non-numeric size parameter "abc" the
handler parses zero and transfers zero bytes even to a fully
cooperative client, not the 1,048,576-byte default the claim
asserts. -/
theorem download_nonnumeric_counterexample :
    parseSize (some "abc") = 0 ∧
    (handleDownload (some "abc") coopClient 1).outcome = Outcome.completed ∧
    (handleDownload (some "abc") coopClient 1).sentTotal = 0 ∧
    (handleDownload (some "abc") coopClient 1).sentTotal ≠ 1048576 := by
  decide

/-- C2 (amended): a download request with no size parameter uses the
one-megabyte default and transfers exactly 1,048,576 bytes to a
cooperative client; a size parameter that parses to zero
(non-numeric) is never rejected — the handler still responds 200 —
but it declares content length 0 and transfers 0 bytes. -/
theorem download_default_and_nonnumeric (client : Nat → ClientStep)
    (hc : ∀ t, (client t).connected = true ∧ 4096 ≤ (client t).accepted)
    (s : String) (hs : parseSize (some s) = 0) (fuel : Nat) :
    (∃ fuel2,
       (handleDownload none client fuel2).contentLength = 1048576 ∧
       (handleDownload none client fuel2).outcome = Outcome.completed ∧
       (handleDownload none client fuel2).sentTotal = 1048576) ∧
    ((handleDownload (some s) client fuel).status = 200 ∧
     (handleDownload (some s) client fuel).contentLength = 0 ∧
     (handleDownload (some s) client fuel).sentTotal = 0) := by
  constructor
  · obtain ⟨fuel2, cs, hrun⟩ := run_coop 1048576 client hc 1048576 0 0 (by omega) (by omega)
    refine ⟨fuel2, rfl, ?_, ?_⟩
    · simp [handleDownload, parseSize, hrun]
    · simp [handleDownload, parseSize, hrun]
  · have hinv := (run_invariant 0 client fuel 0 0 (by omega)).1
    refine ⟨rfl, ?_, ?_⟩
    · simp [handleDownload, hs]
    · have : (handleDownload (some s) client fuel).sentTotal
          = (run 0 client fuel 0 0).sent := by
        simp [handleDownload, hs]
      omega

/-- Witness for C2 at the cooperative client and the concrete
non-numeric parameter "abc". -/
theorem download_default_and_nonnumeric_witness :
    (∃ fuel2,
       (handleDownload none coopClient fuel2).contentLength = 1048576 ∧
       (handleDownload none coopClient fuel2).outcome = Outcome.completed ∧
       (handleDownload none coopClient fuel2).sentTotal = 1048576) ∧
    ((handleDownload (some "abc") coopClient 3).status = 200 ∧
     (handleDownload (some "abc") coopClient 3).contentLength = 0 ∧
     (handleDownload (some "abc") coopClient 3).sentTotal = 0) :=
  download_default_and_nonnumeric coopClient (fun _ => ⟨rfl, Nat.le_refl 4096⟩) "abc"
    (by decide) 3

/-- C3 counterexample: after 2^32 disconnect events the uint32_t
counter has wrapped to zero, so the status endpoint reports 0, not
the claimed exact count 2^32. -/
theorem disconnect_count_wrap_counterexample :
    countDisconnects (List.replicate u32Mod WiFiEventT.apStaDisconnected) = u32Mod ∧
    (handleStatus samplePlatform
      (processEvents (List.replicate u32Mod WiFiEventT.apStaDisconnected))).disconnects
      = 0 ∧
    (0 : Nat) ≠ u32Mod := by
  refine ⟨countDisconnects_replicate u32Mod, ?_, by decide⟩
  rw [handleStatus_disconnects, processEvents_eq, countDisconnects_replicate]
  exact Nat.mod_self u32Mod

/-- C3 (amended): for every event sequence containing N < 2^32
disconnect-meaning events, delivered together with any other events
(which have no effect), the status endpoint reports exactly N; in
general it reports N mod 2^32. -/
theorem disconnect_count_exact_below_wrap (p : PlatformStatus) (es : List WiFiEventT)
    (h : countDisconnects es < u32Mod) :
    (handleStatus p (processEvents es)).disconnects = countDisconnects es := by
  show processEvents es = countDisconnects es
  rw [processEvents_eq]
  exact Nat.mod_eq_of_lt h

/-- Witness for C3 at a concrete three-event sequence with two
disconnect events. -/
theorem disconnect_count_exact_below_wrap_witness :
    countDisconnects
      [WiFiEventT.apStaDisconnected, WiFiEventT.staConnected,
       WiFiEventT.staDisconnected] < u32Mod ∧
    (handleStatus samplePlatform
      (processEvents
        [WiFiEventT.apStaDisconnected, WiFiEventT.staConnected,
         WiFiEventT.staDisconnected])).disconnects
      = countDisconnects
          [WiFiEventT.apStaDisconnected, WiFiEventT.staConnected,
           WiFiEventT.staDisconnected] :=
  ⟨by decide,
   disconnect_count_exact_below_wrap samplePlatform
     [WiFiEventT.apStaDisconnected, WiFiEventT.staConnected,
      WiFiEventT.staDisconnected] (by decide)⟩

/-- C4 counterexample: at the value 2^32 - 1 a disconnect event wraps
the uint32_t counter to 0, a strict decrease, so the counter is not
unconditionally non-decreasing. -/
theorem counter_decrease_at_wrap_counterexample :
    onWiFiEvent WiFiEventT.apStaDisconnected (u32Mod - 1) = 0 ∧
    (0 : Nat) < u32Mod - 1 := by
  constructor
  · rw [onWiFiEvent_disconnect _ _ (by decide)]
    decide
  · decide

/-- C4 (amended): the event callback is the only mutator of the
counter and leaves it unchanged on non-disconnect events; each
invocation never decreases it as long as the counter is below
2^32 - 1 (it wraps to zero exactly at the 2^32-th disconnect). -/
theorem counter_monotone_below_wrap (e : WiFiEventT) (c : Nat) :
    (isDisconnectEvent e = false → onWiFiEvent e c = c) ∧
    (c < u32Mod - 1 → c ≤ onWiFiEvent e c) := by
  have hm : u32Mod = 4294967296 := rfl
  constructor
  · intro h
    exact onWiFiEvent_not_disconnect e c h
  · intro hc
    by_cases hd : isDisconnectEvent e = true
    · rw [onWiFiEvent_disconnect e c hd, Nat.mod_eq_of_lt (by omega)]
      omega
    · rw [onWiFiEvent_not_disconnect e c (by simpa using hd)]

/-- Witness for C4 at a disconnect event on the counter value 5. -/
theorem counter_monotone_below_wrap_witness :
    5 ≤ onWiFiEvent WiFiEventT.apStaDisconnected 5 :=
  (counter_monotone_below_wrap WiFiEventT.apStaDisconnected 5).2 (by decide)

/-- C5: the scan endpoint responds 200 with a serialised sequence of
exactly one element per scanner-reported network, in scanner order,
each element the JSON object with the ssid, rssi, channel and auth
fields; a scan reporting zero networks serialises to the empty
sequence with status 200. -/
theorem scan_serializes_all_networks (nets : List ScanNet) :
    (handleScan nets).status = 200 ∧
    (handleScan nets).body = "[" ++ commaSeparated (nets.map netJson) ++ "]" ∧
    (nets.map netJson).length = nets.length ∧
    (handleScan []).body = "[]" ∧
    (handleScan []).status = 200 := by
  refine ⟨rfl, ?_, by simp, by decide, rfl⟩
  simp [handleScan, jsonArray_eq]

/-- C6: inside the send loop, a zero-byte chunk write on a live
connection costs one delay unit and retries with the sent total
unchanged, so the same chunk min (size - sent) 4096 is requested
again; and a client seen disconnected before the declared total
makes the loop exit at once with only the partial body and no
further output, while the handler response stays status 200 (no
error is signalled to the client). -/
theorem download_backpressure_and_disconnect :
    (∀ size client fuel sent t, sent < size → (client t).connected = true →
      (client t).accepted = 0 →
      run size client (fuel + 1) sent t
        = { outcome := (run size client fuel sent (t + 1)).outcome
            sent := (run size client fuel sent (t + 1)).sent
            chunks := (run size client fuel sent (t + 1)).chunks
            delays := (run size client fuel sent (t + 1)).delays + 1 }) ∧
    (∀ size client fuel sent t, sent < size → (client t).connected = false →
      run size client (fuel + 1) sent t
        = { outcome := Outcome.disconnected, sent := sent, chunks := [], delays := 0 }) ∧
    (∀ sizeArg client fuel, (handleDownload sizeArg client fuel).status = 200) := by
  refine ⟨?_, ?_, ?_⟩
  · intro size client fuel sent t hlt hconn hacc
    apply run_eq_stall size client fuel sent t (by omega) hconn
    rw [hacc]
    simp
  · intro size client fuel sent t hlt hconn
    exact run_eq_disconnected size client fuel sent t (by omega) hconn
  · intro sizeArg client fuel
    rfl

/-- Witness for C6 at concrete stalled and dead clients. -/
theorem download_backpressure_and_disconnect_witness :
    (run 10 stallClient 4 0 0
      = { outcome := (run 10 stallClient 3 0 1).outcome
          sent := (run 10 stallClient 3 0 1).sent
          chunks := (run 10 stallClient 3 0 1).chunks
          delays := (run 10 stallClient 3 0 1).delays + 1 }) ∧
    (run 10 deadClient 4 0 0
      = { outcome := Outcome.disconnected, sent := 0, chunks := [], delays := 0 }) ∧
    (handleDownload (some "10") deadClient 4).status = 200 :=
  ⟨download_backpressure_and_disconnect.1 10 stallClient 3 0 0 (by decide) rfl rfl,
   download_backpressure_and_disconnect.2.1 10 deadClient 3 0 0 (by decide) rfl,
   download_backpressure_and_disconnect.2.2 (some "10") deadClient 4⟩

/-- C7: the send loop has no retry bound or timeout — against a
client that stays connected and always accepts zero bytes it runs
out of any fuel bound while the total is short of the declared size;
conversely, if the connection stays up and every stall is eventually
followed by a write that accepts at least one byte, some finite fuel
completes the transfer with the full declared total sent. -/
theorem download_no_timeout_and_progress_termination :
    (∀ size client, (∀ t, (client t).connected = true ∧ (client t).accepted = 0) →
      ∀ fuel sent t, sent < size →
        (run size client fuel sent t).outcome = Outcome.fuelOut) ∧
    (∀ size client, (∀ t, (client t).connected = true) →
      (∀ t, ∃ u, t ≤ u ∧ 1 ≤ (client u).accepted) →
      ∃ fuel, (run size client fuel 0 0).outcome = Outcome.completed ∧
        (run size client fuel 0 0).sent = size) := by
  constructor
  · intro size client hc
    exact run_stall_forever size client hc
  · intro size client h1 h2
    exact run_progress_completes size client h1 h2 size 0 0 (by omega) (by omega)

/-- Witness for C7 at the concrete stalled and cooperative clients. -/
theorem download_no_timeout_and_progress_termination_witness :
    (run 5 stallClient 2 0 0).outcome = Outcome.fuelOut ∧
    (∃ fuel, (run 3 coopClient fuel 0 0).outcome = Outcome.completed ∧
      (run 3 coopClient fuel 0 0).sent = 3) :=
  ⟨download_no_timeout_and_progress_termination.1 5 stallClient
     (fun _ => ⟨rfl, rfl⟩) 2 0 0 (by decide),
   download_no_timeout_and_progress_termination.2 3 coopClient
     (fun _ => rfl) (fun t => ⟨t, Nat.le_refl t, (by decide : (1 : Nat) ≤ 4096)⟩)⟩

/-- C8 counterexample: the millis tick is a uint32_t, so one
millisecond after elapsed time 2^32 - 1 the later ping call returns
0 while the earlier returned 4294967295 — the returned value is not
non-decreasing over an arbitrarily long process lifetime. -/
theorem ping_rollover_counterexample :
    u32Mod - 1 ≤ u32Mod ∧
    millisOf (u32Mod - 1) = 4294967295 ∧
    millisOf u32Mod = 0 ∧
    ¬ millisOf (u32Mod - 1) ≤ millisOf u32Mod ∧
    (handlePing u32Mod).body = toString (millisOf u32Mod) := by
  refine ⟨by decide, by decide, by decide, by decide, rfl⟩

/-- C8 (amended): across two sequential ping calls the returned
monotonic tick of the later call is at least that of the earlier
call, provided the later call happens within the first 2^32
milliseconds of uptime (before the uint32_t tick rolls over). -/
theorem ping_monotone_before_rollover (m1 m2 : Nat)
    (h12 : m1 ≤ m2) (h2 : m2 < u32Mod) :
    millisOf m1 ≤ millisOf m2 ∧
    (handlePing m1).body = toString (millisOf m1) ∧
    (handlePing m2).status = 200 := by
  refine ⟨?_, rfl, rfl⟩
  have e1 : millisOf m1 = m1 := Nat.mod_eq_of_lt (by omega)
  have e2 : millisOf m2 = m2 := Nat.mod_eq_of_lt h2
  rw [e1, e2]
  exact h12

/-- Witness for C8 at ticks 1000 and 2000. -/
theorem ping_monotone_before_rollover_witness :
    millisOf 1000 ≤ millisOf 2000 ∧
    (handlePing 1000).body = toString (millisOf 1000) ∧
    (handlePing 2000).status = 200 :=
  ping_monotone_before_rollover 1000 2000 (by decide) (by decide)

/-- C9: the clients endpoint responds 200 with one serialised
mac/rssi object per station in the roster, in platform order; the
hardware address is six colon-separated two-character uppercase
hexadecimal octets, and an empty roster serialises to []. -/
theorem clients_serializes_roster (stas : List ApStation) :
    (handleClients stas).status = 200 ∧
    (handleClients stas).body = "[" ++ commaSeparated (stas.map staJson) ++ "]" ∧
    (stas.map staJson).length = stas.length ∧
    (∀ s : ApStation, macToStr s = colonJoin
      [byteHex s.mac0, byteHex s.mac1, byteHex s.mac2,
       byteHex s.mac3, byteHex s.mac4, byteHex s.mac5]) ∧
    (∀ b : Nat, b < 256 →
      (byteHex b).length = 2 ∧ (byteHex b).data.all isHexDigitChar = true) ∧
    (handleClients []).body = "[]" := by
  refine ⟨rfl, ?_, by simp, macToStr_colonJoin, byteHex_wellFormed, by decide⟩
  simp [handleClients, jsonArray_eq]

/-- Witness for C9: the hex-octet property instantiated at the byte
0xAB. -/
theorem clients_serializes_roster_witness :
    (byteHex 171).length = 2 ∧ (byteHex 171).data.all isHexDigitChar = true :=
  (clients_serializes_roster []).2.2.2.2.1 171 (by decide)

/-- C10: starting from any sent total within the declared size, the
send loop never counts more than the declared size as sent: every
chunk is at most 4096 bytes, the chunk bytes written sum to exactly
the final sent total, and for any client behaviour the download body
bytes written never exceed the declared content length. -/
theorem download_never_exceeds_declared (size : Nat) (client : Nat → ClientStep)
    (fuel sent t : Nat) (h : sent ≤ size) :
    ((run size client fuel sent t).sent ≤ size ∧
     sent + ((run size client fuel sent t).chunks).sum = (run size client fuel sent t).sent ∧
     (∀ c ∈ (run size client fuel sent t).chunks, c ≤ 4096)) ∧
    (∀ sizeArg : Option String,
      (bodyBytes (handleDownload sizeArg client fuel)).length
          = (handleDownload sizeArg client fuel).sentTotal ∧
      (handleDownload sizeArg client fuel).sentTotal
          ≤ (handleDownload sizeArg client fuel).contentLength) := by
  obtain ⟨h1, h2, h3⟩ := run_invariant size client fuel sent t h
  refine ⟨⟨h1, h2, fun c hc => (h3 c hc).2⟩, ?_⟩
  intro sizeArg
  obtain ⟨g1, g2, g3⟩ := run_invariant (parseSize sizeArg) client fuel 0 0 (by omega)
  constructor
  · show ((run (parseSize sizeArg) client fuel 0 0).chunks.flatMap
        (fun c => List.replicate c 170)).length
      = (run (parseSize sizeArg) client fuel 0 0).sent
    rw [flatMap_replicate, List.length_replicate]
    omega
  · exact g1

/-- Witness for C10 at a concrete size and the cooperative client. -/
theorem download_never_exceeds_declared_witness :
    (run 5000 coopClient 3 0 0).sent ≤ 5000 ∧
    0 + ((run 5000 coopClient 3 0 0).chunks).sum = (run 5000 coopClient 3 0 0).sent :=
  ⟨(download_never_exceeds_declared 5000 coopClient 3 0 0 (by decide)).1.1,
   (download_never_exceeds_declared 5000 coopClient 3 0 0 (by decide)).1.2.1⟩

end Esp32WifiTest
